import Mathlib

/-!
Verification of `manage-archive.py` (backuppc-archive-s3): a CLI that
lists, inventories and deletes archives in a Glacier-style vault service.

The program is embedded shallowly:

* strings handled character-wise by the Python code (the log-file scrape)
  are `List Char`;
* the remote service (boto3 `glacier` client) is an external collaborator:
  each operation receives the outcome of its single remote call as an
  `Except ClientError _` value — `.error e` models the call raising
  `botocore.exceptions.ClientError`, `.ok r` models the parsed response;
* a function returning `Except ClientError _` models Python code that may
  let a `ClientError` escape; a returned `.error` is an uncaught exception
  crossing the operation boundary;
* `main` is embedded as a trace of observable events (console prints, log
  lines, file accesses, remote calls) plus an optional uncaught-exception
  marker.
-/

/-- Python whitespace as stripped by `str.strip()` (space, tab, newline,
carriage return, vertical tab, form feed). -/
def isPySpace (c : Char) : Bool :=
  c = ' ' || c = '\t' || c = '\n' || c = '\r' || c = '\x0b' || c = '\x0c'

/-- `str.strip()`: drop leading and trailing Python whitespace. -/
def pyStrip (l : List Char) : List Char :=
  ((l.dropWhile isPySpace).reverse.dropWhile isPySpace).reverse

/-- Boolean "is prefix of" over character lists. -/
def isPrefixB : List Char → List Char → Bool
  | [], _ => true
  | _ :: _, [] => false
  | a :: as, b :: bs => a = b && isPrefixB as bs

/-- `str.index(sub)`: index of the first occurrence of `m` in `s`, `none`
when absent (Python raises `ValueError` then). -/
def findSub (m : List Char) : List Char → Option Nat
  | [] => if isPrefixB m [] then some 0 else none
  | s@(_ :: t) => if isPrefixB m s then some 0 else (findSub m t).map (· + 1)

/-- The literal marker `"Archive ID:"` searched for by the delete action. -/
def markerChars : List Char := "Archive ID:".data

/-- One iteration of the scraping loop of the delete action
(`manage-archive.py` lines 171-175): `line[line.index("Archive ID:") + 12:].strip()`,
with the `ValueError` of a marker-less line caught and the line skipped. -/
def extractLine (line : List Char) : Option (List Char) :=
  match findSub markerChars line with
  | none => none
  | some i => some (pyStrip (line.drop (i + 12)))

/-- The whole scraping loop over the lines of the log file: one extracted
ID per line containing the marker, marker-less lines skipped. -/
def extractIds (lines : List (List Char)) : List (List Char) :=
  lines.filterMap extractLine

/-- Follows the wording of the claim (and of spec §4.5), for comparison with
`extractLine`: "the remainder of the line after the marker, trimmed of
surrounding whitespace" — i.e. the slice starting `markerChars.length = 11`
characters after the first marker occurrence, then stripped. -/
def extractLineClaim (line : List Char) : Option (List Char) :=
  match findSub markerChars line with
  | none => none
  | some i => some (pyStrip (line.drop (i + markerChars.length)))

/-- The three-line sample log from spec §8 (as read from a file, each line
carrying its newline). -/
def sampleLogLines : List (List Char) :=
  ["Size:     10,  Archive ID: xyz-001\n".data,
   "(garbage line with no marker)\n".data,
   "Size:     20,  Archive ID: xyz-002\n".data]

theorem isPrefixB_append (m rest : List Char) : isPrefixB m (m ++ rest) = true := by
  induction m with
  | nil => rfl
  | cons a as ih => simp [isPrefixB, ih]

theorem findSub_of_prefixB (m s : List Char) (h : isPrefixB m s = true) :
    findSub m s = some 0 := by
  cases s with
  | nil => simp [findSub, h]
  | cons a t => simp [findSub, h]

theorem findSub_marker_at (pre rest : List Char)
    (h : ∀ i, i < pre.length →
      isPrefixB markerChars ((pre ++ (markerChars ++ rest)).drop i) = false) :
    findSub markerChars (pre ++ (markerChars ++ rest)) = some pre.length := by
  induction pre with
  | nil =>
    simpa using findSub_of_prefixB markerChars (markerChars ++ rest)
      (isPrefixB_append markerChars rest)
  | cons c pre ih =>
    have h0 := h 0 (by simp)
    simp only [List.cons_append, List.drop_zero] at h0
    have hrec : findSub markerChars (pre ++ (markerChars ++ rest)) = some pre.length := by
      apply ih
      intro i hi
      have := h (i + 1) (by simpa using Nat.succ_lt_succ hi)
      simpa [List.cons_append] using this
    rw [List.cons_append]
    simp [findSub, h0, hrec]

theorem extractLine_at_marker (pre rest : List Char)
    (h : ∀ i, i < pre.length →
      isPrefixB markerChars ((pre ++ (markerChars ++ rest)).drop i) = false) :
    extractLine (pre ++ (markerChars ++ rest)) = some (pyStrip (rest.drop 1)) := by
  unfold extractLine
  rw [findSub_marker_at pre rest h]
  show some (pyStrip ((pre ++ (markerChars ++ rest)).drop (pre.length + 12)))
    = some (pyStrip (rest.drop 1))
  have hdrop : (pre ++ (markerChars ++ rest)).drop (pre.length + 12)
      = (markerChars ++ rest).drop 12 := List.drop_append 12
  have hdrop2 : (markerChars ++ rest).drop 12 = rest.drop 1 := rfl
  rw [hdrop, hdrop2]

/-- Claim C10: on a line decomposed as `pre ++ marker ++ rest` where the
first marker occurrence starts at `pre.length`, the extractor yields the
slice starting 12 characters past the marker start — one character past
the 11-character marker — then strips whitespace; so when the ID follows
the colon directly, its first character is lost. -/
theorem claim_C10_extract_offset (pre rest : List Char)
    (h : ∀ i, i < pre.length →
      isPrefixB markerChars ((pre ++ (markerChars ++ rest)).drop i) = false) :
    extractLine (pre ++ (markerChars ++ rest)) = some (pyStrip (rest.drop 1)) :=
  extractLine_at_marker pre rest h

/-- Witness for C10: on `"Size: 5, Archive ID:abc123"` the extractor
yields `"bc123"` — the ID `"abc123"` with its first character dropped. -/
theorem claim_C10_extract_offset_witness :
    extractLine ("Size: 5, ".data ++ (markerChars ++ "abc123".data))
        = some (pyStrip ("abc123".data.drop 1))
      ∧ pyStrip ("abc123".data.drop 1) = "bc123".data :=
  ⟨claim_C10_extract_offset ("Size: 5, ".data) ("abc123".data) (by decide), by decide⟩

/-- Counterexample for C1: on the line `"Archive ID:abc"` (ID adjacent to
the colon) the code yields `"bc"`, not the remainder-after-marker-stripped
`"abc"` that the claim describes. -/
theorem claim_C1_counterexample :
    extractLine ("Archive ID:abc".data) = some ("bc".data)
      ∧ extractLineClaim ("Archive ID:abc".data) = some ("abc".data)
      ∧ ¬ extractLine ("Archive ID:abc".data) = extractLineClaim ("Archive ID:abc".data) := by
  decide

/-- Claim C1 (amended): the extractor yields one ID per line containing
`"Archive ID:"`, namely the slice starting 12 characters after the first
marker occurrence (one past the marker) trimmed of whitespace — not the
full remainder after the marker; marker-less lines are silently skipped,
and on the three-line sample log it yields exactly
`["xyz-001", "xyz-002"]` in that order. -/
theorem claim_C1_extraction :
    (∀ line, findSub markerChars line = none → extractLine line = none)
      ∧ (∀ pre rest,
          (∀ i, i < pre.length →
            isPrefixB markerChars ((pre ++ (markerChars ++ rest)).drop i) = false) →
          extractLine (pre ++ (markerChars ++ rest))
            = some (pyStrip (rest.drop 1)))
      ∧ extractIds sampleLogLines = ["xyz-001".data, "xyz-002".data] := by
  refine ⟨?_, ?_, ?_⟩
  · intro line h
    simp [extractLine, h]
  · exact extractLine_at_marker
  · decide

/-- Witness for C1: the garbage line of the sample is skipped, a sample line
extracts its ID, and the sample log extracts exactly the two IDs. -/
theorem claim_C1_extraction_witness :
    extractLine ("(garbage line with no marker)\n".data) = none
      ∧ extractLine ("Size:     10,  ".data ++ (markerChars ++ " xyz-001\n".data))
          = some (pyStrip (" xyz-001\n".data.drop 1))
      ∧ extractIds sampleLogLines = ["xyz-001".data, "xyz-002".data] :=
  ⟨claim_C1_extraction.1 _ (by decide),
   claim_C1_extraction.2.1 ("Size:     10,  ".data) (" xyz-001\n".data) (by decide),
   claim_C1_extraction.2.2⟩


/-- An expected remote rejection: `botocore.exceptions.ClientError`. -/
structure ClientError where
  message : String
deriving DecidableEq

/-- A vault record as surfaced by the remote `list_vaults` response
(`VaultName`, `NumberOfArchives`, `SizeInBytes`). -/
structure Vault where
  vaultName : String
  numberOfArchives : Int
  sizeInBytes : Int
deriving DecidableEq

/-- The parsed response of the remote `glacier.list_vaults` call:
the `VaultList` entry and the optional `Marker` entry (`vaults.get("Marker")`
is `None` when no more vaults remain). The opaque marker string is
modelled as a position. -/
structure VaultsResponse where
  vaultList : List Vault
  marker : Option Nat
deriving DecidableEq

/-- The parsed response of the remote `glacier.initiate_job` call; the
program only reads its `jobId` entry. -/
structure JobResponse where
  jobId : String
deriving DecidableEq

/-- A JSON value, as produced by `json.loads` on the job-output body.
Numbers are modelled as integers (the inventory fields the program reads
are integral). -/
inductive Json where
  | null
  | bool (b : Bool)
  | num (n : Int)
  | str (s : String)
  | arr (elems : List Json)
  | obj (fields : List (String × Json))

/-- The line `logging.error(e)` renders under the configured format as an
`ERROR:`-level log record carrying the exception text (the timestamp field
is outside the model). -/
def errLog (e : ClientError) : String := "ERROR: " ++ e.message

/-- `list_vaults` (lines 25-44): performs its single remote call with NO
try/except — a `ClientError` raised by the call escapes (`.error`); on
success it returns the `VaultList` and the optional `Marker`. -/
def list_vaults (remote : Except ClientError VaultsResponse) :
    Except ClientError (List Vault × Option Nat) :=
  match remote with
  | .error e => .error e
  | .ok r => .ok (r.vaultList, r.marker)

/-- `retrieve_inventory` (lines 47-69): the remote `initiate_job` call is
wrapped in try/except `ClientError`; on error it logs and returns `None`,
on success the response. The result is always `.ok`: no exception escapes. -/
def retrieve_inventory (remote : Except ClientError JobResponse) :
    Except ClientError (Option JobResponse × List String) :=
  match remote with
  | .error e => .ok (none, [errLog e])
  | .ok r => .ok (some r, [])

/-- `retrieve_inventory_results` (lines 72-90): the remote `get_job_output`
call is wrapped in try/except `ClientError`; on error it logs and returns
`None`, on success the body read and decoded by `json.loads` (the decoded
value is the `.ok` payload of the modelled remote outcome). -/
def retrieve_inventory_results (remote : Except ClientError Json) :
    Except ClientError (Option Json × List String) :=
  match remote with
  | .error e => .ok (none, [errLog e])
  | .ok body => .ok (some body, [])

/-- `delete_archive` (lines 93-108): the remote `delete_archive` call is
wrapped in try/except `ClientError`; on error it logs and returns `False`,
on success `True`. The result is always `.ok`: no exception escapes. -/
def delete_archive (vault_name archive_id : String)
    (remote : Except ClientError Unit) :
    Except ClientError (Bool × List String) :=
  match remote with
  | .error e => .ok (false, [errLog e])
  | .ok _ => .ok (true, [])

/-- Counterexample for C2: `list_vaults` has no exception handler, so a
`ClientError` raised by its remote call escapes the operation boundary
(the result is `.error`, not a `None`/`False` sentinel). -/
theorem claim_C2_counterexample :
    list_vaults (.error ⟨"AccessDenied"⟩) = .error ⟨"AccessDenied"⟩ := rfl

/-- Claim C2 (amended): `retrieve_inventory`, `retrieve_inventory_results`
and `delete_archive` handle every `ClientError` at the point of the call,
converting it to a logged `None`/`None`/`False` sentinel, and never let an
exception escape; `list_vaults`, however, performs its remote call outside
any handler, so its `ClientError` propagates to the caller. -/
theorem claim_C2_error_handling :
    (∀ r : Except ClientError JobResponse, ∃ x, retrieve_inventory r = .ok x)
      ∧ (∀ r : Except ClientError Json, ∃ x, retrieve_inventory_results r = .ok x)
      ∧ (∀ (v a : String) (r : Except ClientError Unit),
          ∃ x, delete_archive v a r = .ok x)
      ∧ (∀ e : ClientError,
          retrieve_inventory (.error e) = .ok (none, [errLog e])
            ∧ retrieve_inventory_results (.error e) = .ok (none, [errLog e])
            ∧ (∀ v a, delete_archive v a (.error e) = .ok (false, [errLog e]))
            ∧ list_vaults (.error e) = .error e) := by
  refine ⟨fun r => ?_, fun r => ?_, fun v a r => ?_, fun e => ⟨rfl, rfl, fun v a => rfl, rfl⟩⟩
  · cases r <;> exact ⟨_, rfl⟩
  · cases r <;> exact ⟨_, rfl⟩
  · cases r <;> exact ⟨_, rfl⟩

/-- Modelled from the spec: the §4.1 contract for the paginated listing of
the external vault service (the remote side of `glacier.list_vaults`,
which is not part of this repository). Given the full remote vault set
`vs`, a call with `limit` and an optional marker returns the next `limit`
vaults from the marker position and a continuation marker exactly when
more vaults remain. -/
def specListRemote (vs : List Vault) (limit : Nat) (marker : Option Nat) :
    Except ClientError VaultsResponse :=
  let start := marker.getD 0
  .ok ⟨(vs.drop start).take limit,
       if start + limit < vs.length then some (start + limit) else none⟩

/-- The pagination loop of the `list` action (lines 137-150): the page of the
current response is printed, the loop ends when the response carried no
marker, and otherwise `list_vaults` is called again with the returned
marker passed back. `fuel` bounds the number of further calls (the Python
loop is unbounded); the vaults are collected in print order. -/
def listActionPages (vs : List Vault) (n : Nat) : Nat → Option Nat → List Vault
  | 0, marker =>
    match list_vaults (specListRemote vs n marker) with
    | .error _ => []
    | .ok (page, _) => page
  | fuel + 1, marker =>
    match list_vaults (specListRemote vs n marker) with
    | .error _ => []
    | .ok (page, next) =>
      match next with
      | none => page
      | some m => page ++ listActionPages vs n fuel (some m)

/-- The whole `list` action against a service holding vaults `vs`, with
page size `n`: first call without a marker, then the loop. The fuel
`vs.length` is shown sufficient in `claim_C4_pagination`. -/
def listAction (vs : List Vault) (n : Nat) : List Vault :=
  listActionPages vs n vs.length none

theorem listActionPages_eq (vs : List Vault) (n : Nat) (hn : 0 < n) :
    ∀ (fuel : Nat) (m : Option Nat),
      vs.length ≤ m.getD 0 + n + fuel * n →
      listActionPages vs n fuel m = vs.drop (m.getD 0) := by
  intro fuel
  induction fuel with
  | zero =>
    intro m hm
    simp only [Nat.zero_mul, Nat.add_zero] at hm
    have hlen : (vs.drop (m.getD 0)).length ≤ n := by
      simp only [List.length_drop]
      omega
    have htake : (vs.drop (m.getD 0)).take n = vs.drop (m.getD 0) :=
      List.take_of_length_le hlen
    simp [listActionPages, list_vaults, specListRemote, htake]
  | succ fuel ih =>
    intro m hm
    by_cases hlt : m.getD 0 + n < vs.length
    · have hrec : listActionPages vs n fuel (some (m.getD 0 + n))
          = vs.drop (m.getD 0 + n) := by
        apply ih
        simp only [Option.getD_some]
        calc vs.length ≤ m.getD 0 + n + (fuel + 1) * n := hm
          _ = m.getD 0 + n + n + fuel * n := by ring
      simp [listActionPages, list_vaults, specListRemote, hlt, hrec]
    · have hlen : (vs.drop (m.getD 0)).length ≤ n := by
        simp only [List.length_drop]
        omega
      have htake : (vs.drop (m.getD 0)).take n = vs.drop (m.getD 0) :=
        List.take_of_length_le hlen
      simp [listActionPages, list_vaults, specListRemote, hlt, htake]

/-- Claim C4: against a service conforming to the §4.1 contract, for every
vault set and every positive page size not exceeding the vault count, the
pagination loop of the `list` action — repeated `list_vaults` calls passing
back the returned marker, stopping when none is returned — produces each
vault of the full set exactly once, in stable order. -/
theorem claim_C4_pagination (vs : List Vault) (n : Nat)
    (hn : 0 < n) (hle : n ≤ vs.length) :
    listAction vs n = vs := by
  have h := listActionPages_eq vs n hn vs.length none
  simp only [Option.getD_none, Nat.zero_add, List.drop_zero] at h
  apply h
  calc vs.length ≤ vs.length * n := Nat.le_mul_of_pos_right _ hn
    _ ≤ n + vs.length * n := Nat.le_add_left _ _

/-- Witness for C4: a three-vault service listed with page size 2 yields
exactly the three vaults in order. -/
theorem claim_C4_pagination_witness :
    listAction [⟨"v1", 1, 10⟩, ⟨"v2", 2, 20⟩, ⟨"v3", 3, 30⟩] 2
      = [⟨"v1", 1, 10⟩, ⟨"v2", 2, 20⟩, ⟨"v3", 3, 30⟩] :=
  claim_C4_pagination [⟨"v1", 1, 10⟩, ⟨"v2", 2, 20⟩, ⟨"v3", 3, 30⟩] 2
    (by decide) (by decide)

/-- A remote-service call made by the program. -/
inductive RemoteCall where
  | listVaults (limit : Nat) (marker : Option Nat)
  | initiateJob (vault : String)
  | getJobOutput (vault : String) (jobId : String)
  | deleteArchive (vault : String) (archiveId : String)
deriving DecidableEq

/-- An observable event of a `main` run: console output (`console.print`),
a log record, a local-file access, or a remote call. -/
inductive Ev where
  | fileOpen (name : String)
  | fileRead (line : List Char)
  | fileClose
  | remote (c : RemoteCall)
  | print (s : String)
  | log (s : String)
deriving DecidableEq

/-- An exception that escapes `main` uncaught: the process dies with a
traceback instead of exiting normally. -/
inductive Crash where
  | clientError (e : ClientError)
  | pyError (msg : String)
deriving DecidableEq

/-- The parsed command line (`argparse` result): positional `ACTION` and
`VAULT_NAME`, flags `--debug` (`-d`), `--filename` (`-f`), `--job` (`-j`). -/
structure Args where
  action : String
  vault : String
  debug : Bool
  filename : Option String
  job : Option String
deriving DecidableEq

/-- The environment of the program: the outcome each remote call would have,
and the local file system (file name → lines, `none` for a missing file). -/
structure World where
  listRemote : Nat → Option Nat → Except ClientError VaultsResponse
  initJobRemote : String → Except ClientError JobResponse
  jobOutputRemote : String → String → Except ClientError Json
  deleteRemote : String → String → Except ClientError Unit
  fs : String → Option (List (List Char))

/-- The allow-list of dispatchable actions (line 22). -/
def VALID_ACTIONS : List String :=
  ["list", "start_inventory", "get_inventory", "delete"]

/-- Left-pad with spaces to width `w` — the Python `format(x, "Nd")` used by
the f-strings. -/
def padLeft (w : Nat) (s : String) : String :=
  if s.length < w then String.mk (List.replicate (w - s.length) ' ') ++ s else s

/-- The vault line printed by the `list` action (line 145). -/
def vaultLine (v : Vault) : String :=
  padLeft 3 (toString v.numberOfArchives) ++ "  "
    ++ padLeft 12 (toString v.sizeInBytes) ++ "  " ++ v.vaultName

/-- The loop body of the `list` action over already-fetched `vaults`/`marker`
(lines 142-150), as a trace: print the page, stop when the marker is
absent, otherwise call `list_vaults` again (page size 10, the default the
code relies on) with the marker passed back. `fuel` bounds further calls. -/
def listLoopEvents (w : World) : Nat → List Vault → Option Nat → List Ev × Option Crash
  | 0, vaults, _ => (vaults.map (fun v => Ev.print (vaultLine v)), none)
  | fuel + 1, vaults, marker =>
    let prints := vaults.map (fun v => Ev.print (vaultLine v))
    match marker with
    | none => (prints, none)
    | some m =>
      match list_vaults (w.listRemote 10 (some m)) with
      | .error e =>
        (prints ++ [Ev.remote (.listVaults 10 (some m))], some (Crash.clientError e))
      | .ok (vaults2, marker2) =>
        let rest := listLoopEvents w fuel vaults2 marker2
        (prints ++ Ev.remote (.listVaults 10 (some m)) :: rest.1, rest.2)

/-- The `list` branch of `main` (lines 137-150): one initial markerless
`list_vaults` call, the two header prints, then the loop. -/
def listBranch (w : World) (fuel : Nat) : List Ev × Option Crash :=
  match list_vaults (w.listRemote 10 none) with
  | .error e => ([Ev.remote (.listVaults 10 none)], some (Crash.clientError e))
  | .ok (vaults, marker) =>
    let rest := listLoopEvents w fuel vaults marker
    (Ev.remote (.listVaults 10 none)
      :: Ev.print "#     Size         Vault Name"
      :: Ev.print "------------------------------" :: rest.1, rest.2)

/-- The `start_inventory` branch of `main` (lines 151-156). -/
def startInventoryBranch (vault : String) (w : World) : List Ev × Option Crash :=
  match retrieve_inventory (w.initJobRemote vault) with
  | .ok (some resp, logs) =>
    (Ev.remote (.initiateJob vault)
      :: (logs.map Ev.log
        ++ [Ev.print ("Initiated inventory-retrieval job for " ++ vault),
            Ev.print ("Retrieval Job ID: " ++ resp.jobId)]), none)
  | .ok (none, logs) => (Ev.remote (.initiateJob vault) :: logs.map Ev.log, none)
  | .error e => ([Ev.remote (.initiateJob vault)], some (Crash.clientError e))

/-- First-match association lookup in a JSON object, `none` when the key
is absent (Python raises `KeyError` then). -/
def jfind : List (String × Json) → String → Option Json
  | [], _ => none
  | (k, v) :: t, key => if k = key then some v else jfind t key

/-- Python `str()` of a JSON leaf as interpolated by the f-strings; the
inventory fields the program prints are strings and integers. -/
def jsonStr : Json → String
  | .str s => s
  | .num n => toString n
  | .bool b => if b then "True" else "False"
  | .null => "None"
  | .arr _ => "<list>"
  | .obj _ => "<dict>"

/-- The per-archive prints of the `get_inventory` branch (lines 164-165):
the f-string `  Size: {Size:6d},  Archive ID: {ArchiveId}` applied to
each archive record; a missing key or non-object record is an uncaught
`KeyError`/`TypeError`. -/
def renderArchives : List Json → List Ev × Option Crash
  | [] => ([], none)
  | a :: rest =>
    match a with
    | .obj akvs =>
      match jfind akvs "Size", jfind akvs "ArchiveId" with
      | some (Json.num sz), some aid =>
        let r := renderArchives rest
        (Ev.print ("  Size: " ++ padLeft 6 (toString sz) ++ ",  Archive ID: "
          ++ jsonStr aid) :: r.1, r.2)
      | _, _ => ([], some (Crash.pyError "KeyError"))
    | _ => ([], some (Crash.pyError "TypeError"))

/-- The inventory rendering of the `get_inventory` branch (lines 163-165):
print the `VaultARN`, then one line per entry of `ArchiveList`. -/
def renderInventory (inv : Json) : List Ev × Option Crash :=
  match inv with
  | .obj kvs =>
    match jfind kvs "VaultARN" with
    | none => ([], some (Crash.pyError "KeyError"))
    | some varn =>
      let l1 := Ev.print ("Vault ARN: " ++ jsonStr varn)
      match jfind kvs "ArchiveList" with
      | none => ([l1], some (Crash.pyError "KeyError"))
      | some (Json.arr archives) =>
        let rest := renderArchives archives
        (l1 :: rest.1, rest.2)
      | some _ => ([l1], some (Crash.pyError "TypeError"))
  | _ => ([], some (Crash.pyError "TypeError"))

/-- The `get_inventory` branch of `main` (lines 157-167): without `-j` it
only prints the required-job-ID message; with a job ID it fetches and
renders the inventory. -/
def getInventoryBranch (vault : String) (job : Option String) (w : World) :
    List Ev × Option Crash :=
  match job with
  | some jid =>
    match retrieve_inventory_results (w.jobOutputRemote vault jid) with
    | .ok (some inv, logs) =>
      let r := renderInventory inv
      (Ev.remote (.getJobOutput vault jid) :: (logs.map Ev.log ++ r.1), r.2)
    | .ok (none, logs) =>
      (Ev.remote (.getJobOutput vault jid) :: logs.map Ev.log, none)
    | .error e => ([Ev.remote (.getJobOutput vault jid)], some (Crash.clientError e))
  | none => ([Ev.print "Job ID is required to get the inventory results"], none)

/-- One pass of the delete driver loop (lines 178-181): call
`delete_archive`, emit its log lines, and print the deletion message only
on success. -/
def deleteAttempt (vault : String) (w : World) (id : String) : List Ev :=
  Ev.remote (.deleteArchive vault id) ::
    match delete_archive vault id (w.deleteRemote vault id) with
    | .ok (true, logs) =>
      logs.map Ev.log ++ [Ev.print ("Deleted archive " ++ id ++ " from " ++ vault)]
    | .ok (false, logs) => logs.map Ev.log
    | .error _ => []

/-- The delete driver loop over the scraped archive IDs. -/
def deleteLoopTrace (vault : String) (w : World) : List String → List Ev
  | [] => []
  | id :: rest => deleteAttempt vault w id ++ deleteLoopTrace vault w rest

/-- The `delete` branch of `main` (lines 168-181): open the hardcoded
`archive.txt` (the `--filename` value is never consulted), read every
line — scraping IDs as lines are read — close the file, and only then run
the deletion loop. A missing file is an uncaught `FileNotFoundError`. -/
def deleteBranch (vault : String) (w : World) : List Ev × Option Crash :=
  match w.fs "archive.txt" with
  | none => ([Ev.fileOpen "archive.txt"], some (Crash.pyError "FileNotFoundError"))
  | some lines =>
    ((Ev.fileOpen "archive.txt" :: (lines.map Ev.fileRead ++ [Ev.fileClose]))
       ++ deleteLoopTrace vault w ((extractIds lines).map String.mk), none)

/-- The `main` function of the program (lines 111-184), named `mainRun` here: dispatch
on the action string; the final `else` prints the unrecognized-action
message and the allow-list. The function always returns (`main` has no
`sys.exit`), so a run without an uncaught exception exits with code 0. -/
def mainRun (a : Args) (w : World) (fuel : Nat) : List Ev × Option Crash :=
  if a.action = "list" then listBranch w fuel
  else if a.action = "start_inventory" then startInventoryBranch a.vault w
  else if a.action = "get_inventory" then getInventoryBranch a.vault a.job w
  else if a.action = "delete" then deleteBranch a.vault w
  else
    ([Ev.print ("ERROR: Action [bold]" ++ a.action ++ "[/bold] is not recognized."),
      Ev.print ("Valid actions are: [cyan]"
        ++ String.intercalate " " VALID_ACTIONS ++ "[cyan]")], none)

/-- The process exit code of a run: 0 on normal return, 1 when an
uncaught exception terminates the interpreter. -/
def exitCode (r : List Ev × Option Crash) : Nat :=
  match r.2 with
  | none => 0
  | some _ => 1

/-- The remote calls made during a trace, in order. -/
def remoteCallsOf (tr : List Ev) : List RemoteCall :=
  tr.filterMap (fun e =>
    match e with
    | .remote c => some c
    | _ => none)

theorem remoteCallsOf_deleteAttempt (v : String) (w : World) (id : String) :
    remoteCallsOf (deleteAttempt v w id) = [RemoteCall.deleteArchive v id] := by
  cases hr : w.deleteRemote v id with
  | error e => simp [deleteAttempt, delete_archive, hr, remoteCallsOf]
  | ok u => simp [deleteAttempt, delete_archive, hr, remoteCallsOf]

theorem remoteCallsOf_append (t1 t2 : List Ev) :
    remoteCallsOf (t1 ++ t2) = remoteCallsOf t1 ++ remoteCallsOf t2 := by
  simp [remoteCallsOf]

theorem remoteCallsOf_deleteLoopTrace (v : String) (w : World) (ids : List String) :
    remoteCallsOf (deleteLoopTrace v w ids) = ids.map (RemoteCall.deleteArchive v) := by
  induction ids with
  | nil => rfl
  | cons id rest ih =>
    rw [deleteLoopTrace, remoteCallsOf_append, remoteCallsOf_deleteAttempt, ih]
    rfl

/-- Claim C3: `delete_archive` returns `True` when the remote call
succeeds and, when it fails with a `ClientError`, returns `False` while
logging the error, never letting the exception out; and for every remote
behavior the driver loop issues one `delete_archive` remote call per
scraped ID, in order — a failing ID never prevents the later attempts. -/
theorem claim_C3_delete_archive :
    (∀ v a, delete_archive v a (.ok ()) = .ok (true, []))
      ∧ (∀ v a e, delete_archive v a (.error e) = .ok (false, [errLog e]))
      ∧ (∀ (v : String) (w : World) (ids : List String),
          remoteCallsOf (deleteLoopTrace v w ids)
            = ids.map (RemoteCall.deleteArchive v)) :=
  ⟨fun _ _ => rfl, fun _ _ _ => rfl, remoteCallsOf_deleteLoopTrace⟩

/-- Claim C5: `args.filename` is never consulted — two invocations that
differ only in the `--filename` value have identical behavior (trace and
crash status), for every action — and the first event of the `delete` action is
opening the hardcoded `archive.txt`, whatever `--filename` held. -/
theorem claim_C5_filename_ignored :
    (∀ (act v : String) (d : Bool) (j f1 f2 : Option String) (w : World) (fuel : Nat),
        mainRun (Args.mk act v d f1 j) w fuel = mainRun (Args.mk act v d f2 j) w fuel)
      ∧ (∀ (v : String) (d : Bool) (f j : Option String) (w : World) (fuel : Nat),
          ((mainRun (Args.mk "delete" v d f j) w fuel).1).head?
            = some (Ev.fileOpen "archive.txt")) := by
  constructor
  · intro act v d j f1 f2 w fuel
    rfl
  · intro v d f j w fuel
    have hm : mainRun (Args.mk "delete" v d f j) w fuel = deleteBranch v w := rfl
    rw [hm]
    cases hfs : w.fs "archive.txt" with
    | none => simp [deleteBranch, hfs]
    | some lines => simp [deleteBranch, hfs]

/-- Claim C6: for every action outside the allow-list, the dispatcher
falls to the final `else`: it prints the unrecognized-action error and the
list of valid actions, makes no remote call, and the process exits 0. -/
theorem claim_C6_unknown_action (act v : String) (d : Bool)
    (f j : Option String) (w : World) (fuel : Nat)
    (h : act ∉ VALID_ACTIONS) :
    mainRun (Args.mk act v d f j) w fuel
        = ([Ev.print ("ERROR: Action [bold]" ++ act ++ "[/bold] is not recognized."),
            Ev.print "Valid actions are: [cyan]list start_inventory get_inventory delete[cyan]"],
           none)
      ∧ remoteCallsOf (mainRun (Args.mk act v d f j) w fuel).1 = []
      ∧ exitCode (mainRun (Args.mk act v d f j) w fuel) = 0 := by
  simp only [VALID_ACTIONS, List.mem_cons, List.mem_singleton] at h
  push_neg at h
  obtain ⟨h1, h2, h3, h4⟩ := h
  have hm : mainRun (Args.mk act v d f j) w fuel
      = ([Ev.print ("ERROR: Action [bold]" ++ act ++ "[/bold] is not recognized."),
          Ev.print "Valid actions are: [cyan]list start_inventory get_inventory delete[cyan]"],
         none) := by
    simp [mainRun, h1, h2, h3, h4]
    rfl
  refine ⟨hm, ?_, ?_⟩
  · rw [hm]
    rfl
  · rw [hm]
    rfl

/-- A world whose remote calls all succeed trivially and whose file system
is empty; used to instantiate universally quantified worlds. -/
def trivialWorld : World :=
  ⟨fun _ _ => .ok ⟨[], none⟩, fun _ => .ok ⟨"job-000"⟩,
   fun _ _ => .ok Json.null, fun _ _ => .ok (), fun _ => none⟩

/-- Witness for C6: the action `"bogus"` prints the error and the valid
action set, makes no remote call, and exits 0. -/
theorem claim_C6_unknown_action_witness :
    mainRun (Args.mk "bogus" "myvault" false none none) trivialWorld 0
        = ([Ev.print ("ERROR: Action [bold]" ++ "bogus" ++ "[/bold] is not recognized."),
            Ev.print "Valid actions are: [cyan]list start_inventory get_inventory delete[cyan]"],
           none)
      ∧ remoteCallsOf (mainRun (Args.mk "bogus" "myvault" false none none) trivialWorld 0).1 = []
      ∧ exitCode (mainRun (Args.mk "bogus" "myvault" false none none) trivialWorld 0) = 0 :=
  claim_C6_unknown_action "bogus" "myvault" false none none trivialWorld 0 (by decide)

/-- Claim C7: a `get_inventory` invocation without `-j` only prints the
required-job-ID message; no remote call is made. -/
theorem claim_C7_missing_job (v : String) (d : Bool) (f : Option String)
    (w : World) (fuel : Nat) :
    mainRun (Args.mk "get_inventory" v d f none) w fuel
        = ([Ev.print "Job ID is required to get the inventory results"], none)
      ∧ remoteCallsOf (mainRun (Args.mk "get_inventory" v d f none) w fuel).1 = [] :=
  ⟨rfl, rfl⟩

/-- Recognizes a file-read event. -/
def isFileReadEv : Ev → Bool
  | .fileRead _ => true
  | _ => false

/-- Recognizes a remote archive-deletion call. -/
def isDeleteCallEv : Ev → Bool
  | .remote (.deleteArchive _ _) => true
  | _ => false

theorem append_phase_lt {α : Type} (p q : α → Bool) (A B : List α)
    (hA : ∀ x ∈ A, q x = false) (hB : ∀ x ∈ B, p x = false)
    (i k : Nat) (hi : i < (A ++ B).length) (hk : k < (A ++ B).length)
    (hp : p ((A ++ B).get ⟨i, hi⟩) = true)
    (hq : q ((A ++ B).get ⟨k, hk⟩) = true) :
    i < k := by
  have hiA : i < A.length := by
    by_contra hcon
    push_neg at hcon
    have hlenB : i - A.length < B.length := by
      rw [List.length_append] at hi
      omega
    have hget : (A ++ B).get ⟨i, hi⟩ = B.get ⟨i - A.length, hlenB⟩ :=
      List.getElem_append_right hcon
    have hmem : B.get ⟨i - A.length, hlenB⟩ ∈ B := List.get_mem B _ _
    have := hB _ hmem
    rw [hget, this] at hp
    exact Bool.noConfusion hp
  have hkA : A.length ≤ k := by
    by_contra hcon
    push_neg at hcon
    have hget : (A ++ B).get ⟨k, hk⟩ = A.get ⟨k, hcon⟩ :=
      List.getElem_append_left hcon
    have hmem : A.get ⟨k, hcon⟩ ∈ A := List.get_mem A _ _
    have := hA _ hmem
    rw [hget, this] at hq
    exact Bool.noConfusion hq
  omega

theorem deleteAttempt_no_fileRead (v : String) (w : World) (id : String) :
    ∀ x ∈ deleteAttempt v w id, isFileReadEv x = false := by
  intro x hx
  cases hr : w.deleteRemote v id with
  | error e =>
    simp [deleteAttempt, delete_archive, hr] at hx
    rcases hx with h | h <;> subst h <;> rfl
  | ok u =>
    simp [deleteAttempt, delete_archive, hr] at hx
    rcases hx with h | h <;> subst h <;> rfl

theorem deleteLoopTrace_no_fileRead (v : String) (w : World) (ids : List String) :
    ∀ x ∈ deleteLoopTrace v w ids, isFileReadEv x = false := by
  induction ids with
  | nil => intro x hx; cases hx
  | cons id rest ih =>
    intro x hx
    rw [deleteLoopTrace, List.mem_append] at hx
    rcases hx with h | h
    · exact deleteAttempt_no_fileRead v w id x h
    · exact ih x h

theorem fileSection_no_deleteCall (lines : List (List Char)) :
    ∀ x ∈ (Ev.fileOpen "archive.txt" :: (lines.map Ev.fileRead ++ [Ev.fileClose])),
      isDeleteCallEv x = false := by
  intro x hx
  rcases List.mem_cons.mp hx with h | h
  · subst h; rfl
  · rcases List.mem_append.mp h with h2 | h2
    · rcases List.mem_map.mp h2 with ⟨l, _, hl⟩
      subst hl; rfl
    · rcases List.mem_singleton.mp h2 with rfl; rfl

/-- Claim C8: in every `delete` run the log file is opened, fully read,
and closed before the first `delete_archive` remote call: in the whole
event trace every file-read event precedes every remote deletion call. -/
theorem claim_C8_read_before_delete (v : String) (d : Bool) (f j : Option String)
    (w : World) (fuel : Nat) (lines : List (List Char))
    (hfs : w.fs "archive.txt" = some lines)
    (i k : Nat)
    (hi : i < ((mainRun (Args.mk "delete" v d f j) w fuel).1).length)
    (hk : k < ((mainRun (Args.mk "delete" v d f j) w fuel).1).length)
    (hread : isFileReadEv (((mainRun (Args.mk "delete" v d f j) w fuel).1).get ⟨i, hi⟩) = true)
    (hdel : isDeleteCallEv (((mainRun (Args.mk "delete" v d f j) w fuel).1).get ⟨k, hk⟩) = true) :
    i < k := by
  have hT : (mainRun (Args.mk "delete" v d f j) w fuel).1
      = (Ev.fileOpen "archive.txt" :: (lines.map Ev.fileRead ++ [Ev.fileClose]))
        ++ deleteLoopTrace v w ((extractIds lines).map String.mk) := by
    show (deleteBranch v w).1 = _
    simp [deleteBranch, hfs]
  have hi2 : i < ((Ev.fileOpen "archive.txt" :: (lines.map Ev.fileRead ++ [Ev.fileClose]))
      ++ deleteLoopTrace v w ((extractIds lines).map String.mk)).length := hT ▸ hi
  have hk2 : k < ((Ev.fileOpen "archive.txt" :: (lines.map Ev.fileRead ++ [Ev.fileClose]))
      ++ deleteLoopTrace v w ((extractIds lines).map String.mk)).length := hT ▸ hk
  apply append_phase_lt isFileReadEv isDeleteCallEv _ _
    (fileSection_no_deleteCall lines)
    (deleteLoopTrace_no_fileRead v w ((extractIds lines).map String.mk))
    i k hi2 hk2
  · rw [← hread]
    congr 1
    exact (List.get_of_eq hT _).symm ▸ rfl
  · rw [← hdel]
    congr 1
    exact (List.get_of_eq hT _).symm ▸ rfl

/-- A world for the delete-action witness: `archive.txt` holds one
marker line and every remote delete succeeds. -/
def deleteWorld : World :=
  ⟨fun _ _ => .ok ⟨[], none⟩, fun _ => .ok ⟨"job-000"⟩,
   fun _ _ => .ok Json.null, fun _ _ => .ok (),
   fun n => if n = "archive.txt" then some ["Archive ID: abc\n".data] else none⟩

/-- Witness for C8: in the concrete delete run over a one-line log the
file-read event (index 1) precedes the remote deletion call (index 3). -/
theorem claim_C8_read_before_delete_witness : 1 < 3 :=
  claim_C8_read_before_delete "myvault" false none none deleteWorld 0
    ["Archive ID: abc\n".data] (by decide) 1 3 (by decide) (by decide)
    (by decide) (by decide)

/-- The inventory JSON of the round-trip property in spec §8, as decoded by
`json.loads`. -/
def sampleInventoryJson : Json :=
  .obj [("VaultARN", .str "arn:x"),
        ("ArchiveList", .arr [.obj [("Size", .num 5), ("ArchiveId", .str "a1")]])]

/-- A world whose job-output call returns the sample inventory body. -/
def inventoryWorld : World :=
  ⟨fun _ _ => .ok ⟨[], none⟩, fun _ => .ok ⟨"job-000"⟩,
   fun _ _ => .ok sampleInventoryJson, fun _ _ => .ok (), fun _ => none⟩

/-- Claim C9: when the job-output body decodes to
`VaultARN "arn:x"` with one archive entry of size 5 and ID `"a1"`, the
`get_inventory` action makes the job-output call and prints the rendered
inventory — the archive ID `a1` and the size 5 both appear in the printed
output, formatted as the f-strings in the code do. -/
theorem claim_C9_inventory_roundtrip :
    mainRun (Args.mk "get_inventory" "vault1" false none (some "job-1")) inventoryWorld 0
      = ([Ev.remote (.getJobOutput "vault1" "job-1"),
          Ev.print "Vault ARN: arn:x",
          Ev.print "  Size:      5,  Archive ID: a1"], none) := by
  rfl
